import Mathlib

/-!
Verification of the RISC-V architecture binding (`riscv.py`): the
instruction-info / instruction-text / instruction-IL queries, the
control-transfer classification sets, and the register tables of the
32-bit and 64-bit variants.  The decoder, token renderer and lifter live
in modules not present in the repository snapshot; they are modelled
from the specification where a claim needs them.
-/

/-- A decoded instruction: mnemonic, byte size, sign-extended immediate,
and the three register fields.  Mirrors the Instruction value type of
the data model (mnemonic, size, immediate, operand fields). -/
structure Instr where
  name : String
  size : Nat
  imm : Int
  rd : Nat
  rs1 : Nat
  rs2 : Nat
  deriving Repr, DecidableEq

/-- Branch kinds used by `get_instruction_info` in `riscv.py`
(`BranchType.FunctionReturn`, `TrueBranch`, `FalseBranch`,
`CallDestination`, `UnresolvedBranch`). -/
inductive BranchType where
  | functionReturn
  | trueBranch
  | falseBranch
  | callDestination
  | unresolvedBranch
  deriving Repr, DecidableEq

/-- `InstructionInfo`: a length plus the list of control-transfer facts
added by `result.add_branch(kind, target?)`, in call order. -/
structure InstructionInfo where
  length : Nat
  branches : List (BranchType × Option Int)
  deriving Repr, DecidableEq

/-- `branch_ins` from `riscv.py` lines 21-24. -/
def branch_ins : List String :=
  ["beq", "bne", "beqz", "bnez", "bge", "bgeu", "blt", "bltu", "blez",
   "bgez", "bltz", "bgtz"]

/-- `direct_call_ins` from `riscv.py` line 26. -/
def direct_call_ins : List String := ["jal", "j"]

/-- `indirect_call_ins` from `riscv.py` line 27. -/
def indirect_call_ins : List String := ["jalr", "jr"]

/-- Bit-field extraction: bits `lo .. lo+len-1` of `w`. -/
def getBits (w lo len : Nat) : Nat := w / 2 ^ lo % 2 ^ len

/-- Two-sided sign extension of an unsigned `width`-bit value. -/
def signExtend (x width : Nat) : Int :=
  if x < 2 ^ (width - 1) then (x : Int) else (x : Int) - 2 ^ width

/-- I-format immediate: bits 31:20, sign-extended (12 bits). -/
def immI (w : Nat) : Int := signExtend (getBits w 20 12) 12

/-- S-format immediate: bits 31:25 and 11:7, sign-extended (12 bits). -/
def immS (w : Nat) : Int :=
  signExtend (getBits w 7 5 + getBits w 25 7 * 32) 12

/-- B-format immediate: reassembled from bits 31, 7, 30:25, 11:8
(a multiple of 2), sign-extended (13 bits). -/
def immB (w : Nat) : Int :=
  signExtend (getBits w 8 4 * 2 + getBits w 25 6 * 32 +
    getBits w 7 1 * 2048 + getBits w 31 1 * 4096) 13

/-- J-format immediate: reassembled from bits 31, 19:12, 20, 30:21
(a multiple of 2), sign-extended (21 bits). -/
def immJ (w : Nat) : Int :=
  signExtend (getBits w 21 10 * 2 + getBits w 20 1 * 2048 +
    getBits w 12 8 * 4096 + getBits w 31 1 * 1048576) 21

/-- U-format immediate: bits 31:12 shifted left by 12, sign-extended. -/
def immU (w : Nat) : Int := signExtend (getBits w 12 20 * 4096) 32

/-- The variable fields of a decoded base-set instruction: everything
but the size, which is the fixed 4 of the covered encoding. -/
structure DecodedFields where
  name : String
  imm : Int
  rd : Nat
  rs1 : Nat
  rs2 : Nat
  deriving Repr, DecidableEq

/-- Modelled from the spec: the 32-bit opcode-word decoder of the
missing `instruction` module (`RVDisassembler`).  It extracts the
opcode/funct fields, dispatches to the base-set instruction formats
(register-register, register-immediate, load, store, branch, jump,
upper-immediate), reconstructs the split immediates bit-exactly with
sign extension, canonicalizes the well-known idioms into
pseudo-mnemonics (`beqz`/`bnez` for a branch against the hard-wired
zero register, `j` for a link-discarding jump, `jr` for a
link-discarding register jump, `ret` for the link-register jump with
discarded result), and returns failure on unallocated opcodes. -/
def decode32fields (w : Nat) : Option DecodedFields :=
  let opcode := w % 128
  let rd := getBits w 7 5
  let funct3 := getBits w 12 3
  let rs1 := getBits w 15 5
  let rs2 := getBits w 20 5
  if opcode = 0x37 then
    some ⟨"lui", immU w, rd, 0, 0⟩
  else if opcode = 0x17 then
    some ⟨"auipc", immU w, rd, 0, 0⟩
  else if opcode = 0x6f then
    some ⟨if rd = 0 then "j" else "jal", immJ w, rd, 0, 0⟩
  else if opcode = 0x67 then
    if funct3 = 0 then
      some ⟨if rd = 0 ∧ rs1 = 1 ∧ immI w = 0 then "ret"
            else if rd = 0 then "jr" else "jalr", immI w, rd, rs1, 0⟩
    else none
  else if opcode = 0x63 then
    if funct3 = 0 then
      some ⟨if rs2 = 0 then "beqz" else "beq", immB w, 0, rs1, rs2⟩
    else if funct3 = 1 then
      some ⟨if rs2 = 0 then "bnez" else "bne", immB w, 0, rs1, rs2⟩
    else if funct3 = 4 then
      some ⟨if rs2 = 0 then "bltz" else if rs1 = 0 then "bgtz" else "blt",
            immB w, 0, rs1, rs2⟩
    else if funct3 = 5 then
      some ⟨if rs2 = 0 then "bgez" else if rs1 = 0 then "blez" else "bge",
            immB w, 0, rs1, rs2⟩
    else if funct3 = 6 then
      some ⟨"bltu", immB w, 0, rs1, rs2⟩
    else if funct3 = 7 then
      some ⟨"bgeu", immB w, 0, rs1, rs2⟩
    else none
  else if opcode = 0x13 then
    if funct3 = 0 then some ⟨"addi", immI w, rd, rs1, 0⟩
    else if funct3 = 2 then some ⟨"slti", immI w, rd, rs1, 0⟩
    else if funct3 = 3 then some ⟨"sltiu", immI w, rd, rs1, 0⟩
    else if funct3 = 4 then some ⟨"xori", immI w, rd, rs1, 0⟩
    else if funct3 = 6 then some ⟨"ori", immI w, rd, rs1, 0⟩
    else if funct3 = 7 then some ⟨"andi", immI w, rd, rs1, 0⟩
    else none
  else if opcode = 0x33 then
    if funct3 = 0 then
      if getBits w 25 7 = 0 then some ⟨"add", 0, rd, rs1, rs2⟩
      else if getBits w 25 7 = 32 then some ⟨"sub", 0, rd, rs1, rs2⟩
      else none
    else none
  else if opcode = 0x03 then
    if funct3 = 0 then some ⟨"lb", immI w, rd, rs1, 0⟩
    else if funct3 = 1 then some ⟨"lh", immI w, rd, rs1, 0⟩
    else if funct3 = 2 then some ⟨"lw", immI w, rd, rs1, 0⟩
    else if funct3 = 4 then some ⟨"lbu", immI w, rd, rs1, 0⟩
    else if funct3 = 5 then some ⟨"lhu", immI w, rd, rs1, 0⟩
    else none
  else if opcode = 0x23 then
    if funct3 = 0 then some ⟨"sb", immS w, 0, rs1, rs2⟩
    else if funct3 = 1 then some ⟨"sh", immS w, 0, rs1, rs2⟩
    else if funct3 = 2 then some ⟨"sw", immS w, 0, rs1, rs2⟩
    else none
  else none

/-- Modelled from the spec: completion of the word decoder — every
recognized instruction of the covered 32-bit base encoding carries the
fixed size 4. -/
def decode32 (w : Nat) : Option Instr :=
  (decode32fields w).map fun r => ⟨r.name, 4, r.imm, r.rd, r.rs1, r.rs2⟩

/-- Modelled from the spec: `RVDisassembler.decode(data, address)` of
the missing `instruction` module.  With fewer than 4 bytes available
the result is failure; otherwise the 4-byte little-endian opcode word
is read and decoded.  Decoding is stateless and does not depend on the
address. -/
def decode (data : List Nat) (_addr : Int) : Option Instr :=
  match data with
  | b0 :: b1 :: b2 :: b3 :: _ =>
      decode32 (b0 % 256 + b1 % 256 * 256 + b2 % 256 * 65536 +
        b3 % 256 * 16777216)
  | _ => none

/-- Modelled from the spec: `gen_token` of the missing `instruction`
module.  Purely presentational rendering of one instruction into
(text, token-kind) pairs: mnemonic token, separator, then operand
tokens; deterministic for identical Instruction values. -/
def gen_token (instr : Instr) : List (String × String) :=
  [(instr.name, "instruction"), (" ", "text"), (toString instr.imm, "integer")]

/-- Modelled from the spec: `Lifter.lift(il, instr, mnemonic)` of the
missing `lifter` module.  It appends the IL operations for the
instruction to the builder, dispatching on the mnemonic; the builder is
represented as the list of emitted operations. -/
def lift (il : List String) (instr : Instr) (name : String) : List String :=
  il ++ [name ++ " " ++ toString instr.imm]

/-- The classification body of `RISCV.get_instruction_info`
(`riscv.py` lines 102-117): length, `dest = addr + instr.imm`, then the
`ret` / `branch_ins` / `direct_call_ins` / `indirect_call_ins`
dispatch adding the control-transfer facts. -/
def instruction_info_result (instr : Instr) (addr : Int) : InstructionInfo :=
  let dest := addr + instr.imm
  let branches :=
    if instr.name = "ret" then
      [(BranchType.functionReturn, (none : Option Int))]
    else if instr.name ∈ branch_ins then
      [(BranchType.trueBranch, some dest),
       (BranchType.falseBranch, some (addr + 4))]
    else if instr.name ∈ direct_call_ins then
      [(BranchType.callDestination, some dest)]
    else if instr.name ∈ indirect_call_ins then
      [(BranchType.unresolvedBranch, (none : Option Int))]
    else []
  { length := instr.size, branches := branches }

/-- `RISCV.get_instruction_info` (`riscv.py` lines 95-117): decode,
return `None` on failure, otherwise the classified result. -/
def get_instruction_info (data : List Nat) (addr : Int) :
    Option InstructionInfo :=
  match decode data addr with
  | none => none
  | some instr => some (instruction_info_result instr addr)

/-- `RISCV.get_instruction_text` (`riscv.py` lines 119-128): decode,
return `None` on failure, otherwise the token list and `instr.size`. -/
def get_instruction_text (data : List Nat) (addr : Int) :
    Option (List (String × String) × Nat) :=
  match decode data addr with
  | none => none
  | some instr => some (gen_token instr, instr.size)

/-- `RISCV.get_instruction_low_level_il` (`riscv.py` lines 130-138):
decode, return `None` on failure, otherwise lift into the builder and
return the builder contents together with `instr.size`. -/
def get_instruction_low_level_il (data : List Nat) (addr : Int)
    (il : List String) : Option (List String × Nat) :=
  match decode data addr with
  | none => none
  | some instr => some (lift il instr instr.name, instr.size)

/-- `RISCV.address_size` (`riscv.py` line 33). -/
def riscv_address_size : Nat := 4

/-- `RISCV.regs` (`riscv.py` lines 44-91): the 32-bit variant register
table as an ordered (name, width) association list, each entry built as
`RegisterInfo(name, address_size)` with `address_size = 4`. -/
def riscv_regs : List (String × Nat) :=
  [("zero", riscv_address_size), ("ra", riscv_address_size),
   ("sp", riscv_address_size), ("gp", riscv_address_size),
   ("tp", riscv_address_size), ("t0", riscv_address_size),
   ("t1", riscv_address_size), ("t2", riscv_address_size),
   ("s0", riscv_address_size), ("s1", riscv_address_size),
   ("a0", riscv_address_size), ("a1", riscv_address_size),
   ("a2", riscv_address_size), ("a3", riscv_address_size),
   ("a4", riscv_address_size), ("a5", riscv_address_size),
   ("a6", riscv_address_size), ("a7", riscv_address_size),
   ("s2", riscv_address_size), ("s3", riscv_address_size),
   ("s4", riscv_address_size), ("s5", riscv_address_size),
   ("s6", riscv_address_size), ("s7", riscv_address_size),
   ("s8", riscv_address_size), ("s9", riscv_address_size),
   ("s10", riscv_address_size), ("s11", riscv_address_size),
   ("t3", riscv_address_size), ("t4", riscv_address_size),
   ("t5", riscv_address_size), ("t6", riscv_address_size),
   ("pc", riscv_address_size)]

/-- `RISCV64.regs` (`riscv.py` line 152):
`{k: RegisterInfo(k, 8) for k, v in RISCV.regs.items()}` — the same
keys in the same order, every width replaced by 8. -/
def riscv64_regs : List (String × Nat) :=
  riscv_regs.map (fun p => (p.1, 8))

/-- Every instruction produced by the word decoder has size 4. -/
theorem decode32_size {w : Nat} {instr : Instr}
    (h : decode32 w = some instr) : instr.size = 4 := by
  unfold decode32 at h
  cases hr : decode32fields w with
  | none => rw [hr] at h; exact absurd h (by simp)
  | some r =>
      rw [hr] at h
      simp only [Option.map_some'] at h
      injection h with h
      subst h
      rfl

/-- Every successfully decoded instruction has size 4. -/
theorem decode_size {data : List Nat} {addr : Int} {instr : Instr}
    (h : decode data addr = some instr) : instr.size = 4 := by
  unfold decode at h
  split at h
  · exact decode32_size h
  · exact absurd h (by simp)

/-- C1: for every (bytes, address) input that decodes successfully, the
length returned by the info, text and IL queries is the same value,
equal to the decoded instruction size, which is the fixed 4-byte width
of the base encoding. -/
theorem length_agreement (data : List Nat) (addr : Int) (instr : Instr)
    (h : decode data addr = some instr) :
    (get_instruction_info data addr).map InstructionInfo.length =
      some instr.size ∧
    (get_instruction_text data addr).map Prod.snd = some instr.size ∧
    (∀ il, (get_instruction_low_level_il data addr il).map Prod.snd =
      some instr.size) ∧
    instr.size = 4 := by
  refine ⟨?_, ?_, ?_, decode_size h⟩ <;>
    simp [get_instruction_info, get_instruction_text,
      get_instruction_low_level_il, instruction_info_result, h]

/-- Witness for C1 at the `ret` encoding `0x00008067` at address 0. -/
theorem length_agreement_witness :
    (get_instruction_info [0x67, 0x80, 0, 0] 0).map InstructionInfo.length =
      some 4 ∧
    (get_instruction_text [0x67, 0x80, 0, 0] 0).map Prod.snd = some 4 ∧
    (get_instruction_low_level_il [0x67, 0x80, 0, 0] 0 []).map Prod.snd =
      some 4 := by
  have h := length_agreement [0x67, 0x80, 0, 0] 0 ⟨"ret", 4, 0, 0, 1, 0⟩ rfl
  exact ⟨h.1, h.2.1, h.2.2.1 []⟩

/-- C2: for every decoded instruction whose mnemonic is a
conditional-branch mnemonic, the info query produces exactly two
control-transfer facts: a taken-target fact with target
`address + immediate` and a fallthrough fact with target
`address + size`. -/
theorem branch_two_facts (data : List Nat) (addr : Int) (instr : Instr)
    (h : decode data addr = some instr) (hb : instr.name ∈ branch_ins) :
    get_instruction_info data addr =
      some { length := instr.size,
             branches := [(BranchType.trueBranch, some (addr + instr.imm)),
               (BranchType.falseBranch, some (addr + (instr.size : Int)))] } := by
  have h4 := decode_size h
  have hret : instr.name ≠ "ret" := by
    intro he
    rw [he] at hb
    exact absurd hb (by decide)
  simp [get_instruction_info, h, instruction_info_result, hret, hb, h4]

/-- Witness for C2: `beq x1, x2, +8` (`0x00208463`) at address
`0x2000`. -/
theorem branch_two_facts_witness :
    get_instruction_info [0x63, 0x84, 0x20, 0x00] 0x2000 =
      some { length := 4,
             branches := [(BranchType.trueBranch, some 0x2008),
               (BranchType.falseBranch, some 0x2004)] } := by
  have h := branch_two_facts [0x63, 0x84, 0x20, 0x00] 0x2000
    ⟨"beq", 4, 8, 0, 1, 2⟩ rfl (by decide)
  simpa using h

/-- C3: when decode fails at an address — in particular on a truncated
buffer of fewer than 4 bytes — all three queries report absence (a
null result) rather than raising an error, and no partial result is
produced. -/
theorem decode_failure_all_none (data : List Nat) (addr : Int) :
    (data.length < 4 → decode data addr = none) ∧
    (decode data addr = none →
      get_instruction_info data addr = none ∧
      get_instruction_text data addr = none ∧
      ∀ il, get_instruction_low_level_il data addr il = none) := by
  constructor
  · intro hlen
    match data with
    | [] => rfl
    | [_] => rfl
    | [_, _] => rfl
    | [_, _, _] => rfl
    | _ :: _ :: _ :: _ :: _ => simp at hlen; omega
  · intro h
    refine ⟨?_, ?_, ?_⟩ <;>
      simp [get_instruction_info, get_instruction_text,
        get_instruction_low_level_il, h]

/-- Witness for C3 at the 1-byte truncated buffer `[0]`. -/
theorem decode_failure_all_none_witness :
    get_instruction_info [0] 0 = none ∧
    get_instruction_text [0] 0 = none ∧
    get_instruction_low_level_il [0] 0 [] = none := by
  have h := decode_failure_all_none [0] 0
  obtain ⟨h1, h2, h3⟩ := h.2 (h.1 (by decide))
  exact ⟨h1, h2, h3 []⟩

/-- C4: for every decoded instruction named `ret`, the info query
reports exactly one function-return fact carrying no target, and no
other control-transfer fact. -/
theorem ret_single_fact (data : List Nat) (addr : Int) (instr : Instr)
    (h : decode data addr = some instr) (hr : instr.name = "ret") :
    get_instruction_info data addr =
      some { length := instr.size,
             branches := [(BranchType.functionReturn, none)] } := by
  simp [get_instruction_info, h, instruction_info_result, hr]

/-- Witness for C4: the `ret` encoding `0x00008067` at address
`0x4000`. -/
theorem ret_single_fact_witness :
    get_instruction_info [0x67, 0x80, 0x00, 0x00] 0x4000 =
      some { length := 4,
             branches := [(BranchType.functionReturn, none)] } := by
  exact ret_single_fact [0x67, 0x80, 0x00, 0x00] 0x4000
    ⟨"ret", 4, 0, 0, 1, 0⟩ rfl rfl

/-- C5: for every decoded instruction whose mnemonic is in the
direct-transfer set, the info query produces exactly one
control-transfer fact whose resolved target is
`address + immediate`. -/
theorem direct_call_single_fact (data : List Nat) (addr : Int)
    (instr : Instr) (h : decode data addr = some instr)
    (hd : instr.name ∈ direct_call_ins) :
    get_instruction_info data addr =
      some { length := instr.size,
             branches := [(BranchType.callDestination,
               some (addr + instr.imm))] } := by
  have hcases : instr.name = "jal" ∨ instr.name = "j" := by
    simpa [direct_call_ins] using hd
  rcases hcases with he | he <;>
    simp [get_instruction_info, h, instruction_info_result, he, branch_ins,
      direct_call_ins]

/-- Witness for C5: `jal x1, +0x20` (`0x020000ef`) at address
`0x1000`. -/
theorem direct_call_single_fact_witness :
    get_instruction_info [0xef, 0x00, 0x00, 0x02] 0x1000 =
      some { length := 4,
             branches := [(BranchType.callDestination, some 0x1020)] } := by
  have h := direct_call_single_fact [0xef, 0x00, 0x00, 0x02] 0x1000
    ⟨"jal", 4, 0x20, 1, 0, 0⟩ rfl (by decide)
  simpa using h

/-- C6: for every decoded instruction whose mnemonic is in the
indirect-transfer set, the info query produces exactly one
control-transfer fact with an unresolved target carrying no target
value. -/
theorem indirect_call_single_fact (data : List Nat) (addr : Int)
    (instr : Instr) (h : decode data addr = some instr)
    (hi : instr.name ∈ indirect_call_ins) :
    get_instruction_info data addr =
      some { length := instr.size,
             branches := [(BranchType.unresolvedBranch, none)] } := by
  have hcases : instr.name = "jalr" ∨ instr.name = "jr" := by
    simpa [indirect_call_ins] using hi
  rcases hcases with he | he <;>
    simp [get_instruction_info, h, instruction_info_result, he, branch_ins,
      direct_call_ins, indirect_call_ins]

/-- Witness for C6: `jalr x1, x5, 0` (`0x000280e7`) at address 0. -/
theorem indirect_call_single_fact_witness :
    get_instruction_info [0xe7, 0x80, 0x02, 0x00] 0 =
      some { length := 4,
             branches := [(BranchType.unresolvedBranch, none)] } := by
  have h := indirect_call_single_fact [0xe7, 0x80, 0x02, 0x00] 0
    ⟨"jalr", 4, 0, 1, 5, 0⟩ rfl (by decide)
  simpa using h

/-- C7: the three classification sets {branches, direct-transfers,
indirect-transfers} are pairwise disjoint and the canonical return
mnemonic `ret` belongs to none of them, so every mnemonic belongs to
at most one classification category. -/
theorem classification_sets_disjoint :
    branch_ins.inter direct_call_ins = [] ∧
    branch_ins.inter indirect_call_ins = [] ∧
    direct_call_ins.inter indirect_call_ins = [] ∧
    "ret" ∉ branch_ins ∧ "ret" ∉ direct_call_ins ∧
    "ret" ∉ indirect_call_ins := by
  decide

/-- C8: for every decoded instruction whose mnemonic is neither `ret`
nor a member of any classification set, the info query still succeeds
and returns a result with the length set and zero control-transfer
facts. -/
theorem unclassified_fallthrough (data : List Nat) (addr : Int)
    (instr : Instr) (h : decode data addr = some instr)
    (h1 : instr.name ≠ "ret") (h2 : instr.name ∉ branch_ins)
    (h3 : instr.name ∉ direct_call_ins)
    (h4 : instr.name ∉ indirect_call_ins) :
    get_instruction_info data addr =
      some { length := instr.size, branches := [] } := by
  simp [get_instruction_info, h, instruction_info_result, h1, h2, h3, h4]

/-- Witness for C8: `addi x1, x0, 5` (`0x00500093`) at address 0. -/
theorem unclassified_fallthrough_witness :
    get_instruction_info [0x93, 0x00, 0x50, 0x00] 0 =
      some { length := 4, branches := [] } := by
  exact unclassified_fallthrough [0x93, 0x00, 0x50, 0x00] 0
    ⟨"addi", 4, 5, 1, 0, 0⟩ rfl (by decide) (by decide) (by decide)
    (by decide)

/-- C9: each variant's register table is a fixed, closed mapping of
exactly 33 entries (32 general-purpose registers plus the program
counter), with identical register names in both variants; every width
is 4 bytes in the 32-bit variant and 8 bytes in the 64-bit variant. -/
theorem register_tables :
    riscv_regs.length = 33 ∧ riscv64_regs.length = 33 ∧
    riscv64_regs.map Prod.fst = riscv_regs.map Prod.fst ∧
    riscv_regs.all (fun p => p.2 == 4) = true ∧
    riscv64_regs.all (fun p => p.2 == 8) = true := by
  decide

/-- C10: for the `ret` mnemonic the info result is independent of the
immediate field — two instructions identical except for their
immediates, both named `ret`, yield equal info results at the same
address. -/
theorem ret_info_imm_independent (addr : Int) (i1 i2 : Instr)
    (h1 : i1.name = "ret") (h2 : i2.name = "ret")
    (hsize : i1.size = i2.size) (hrd : i1.rd = i2.rd)
    (hrs1 : i1.rs1 = i2.rs1) (hrs2 : i1.rs2 = i2.rs2) :
    instruction_info_result i1 addr = instruction_info_result i2 addr := by
  simp [instruction_info_result, h1, h2, hsize]

/-- Witness for C10: two `ret` instructions with immediates 0 and 99
at address 0. -/
theorem ret_info_imm_independent_witness :
    instruction_info_result ⟨"ret", 4, 0, 0, 1, 0⟩ 0 =
      instruction_info_result ⟨"ret", 4, 99, 0, 1, 0⟩ 0 := by
  exact ret_info_imm_independent 0 ⟨"ret", 4, 0, 0, 1, 0⟩
    ⟨"ret", 4, 99, 0, 1, 0⟩ rfl rfl rfl rfl rfl rfl
